import Mathlib

/-!
Verification development for the libssha SSH-agent library.

Each definition is a shallow embedding of the corresponding C++ entity:
* `Serializer` / codec functions  — src/src/utils/serializer.cpp, deserializer.cpp
* hop / destination-constraint model — src/src/extensions/openssh-restrict-destination.cpp
* `KeyBase.permitted` — src/src/key/key.cpp
* `KMState` and its operations — src/src/key/key-manager.cpp
* `SessionState`, `processExtension`, `processSignRequest`, `processReal`
  — src/src/agent/session.cpp
* `SecureAllocator.deallocate` scrub — src/include/libssha/utils/secure_vector.h

Bytes are modelled as `Nat` (always < 256 where produced by the encoder),
byte vectors as `List Nat`, machine time as integral seconds.
External collaborators (crypto verification, the embedder's hooks, message
sub-parsers that live outside the claims) are oracle parameters.
-/

namespace Libssha

/-- 256 KiB frame budget, `MAX_SERIALIZED_SIZE` in serializer.cpp. -/
def MAX_SERIALIZED_SIZE : Nat := 256 * 1024

/-- Big-endian 32-bit encoding of `v`, as pushed by `Serializer::writeBE32`. -/
def be32 (v : Nat) : List Nat :=
  [v / 16777216 % 256, v / 65536 % 256, v / 256 % 256, v % 256]

/-- Serializer state: the byte buffer `m_data`. -/
structure Serializer where
  data : List Nat
deriving DecidableEq, Repr

/-- `Serializer::writeBE32` (append form, `at == -1`): reject when the buffer
would exceed 256 KiB, else append the four big-endian bytes. -/
def Serializer.writeBE32 (s : Serializer) (v : Nat) : Except Unit Serializer :=
  if s.data.length + 4 > MAX_SERIALIZED_SIZE then .error ()
  else .ok ⟨s.data ++ be32 v⟩

/-- `Serializer::writeBlob`: reject when header plus payload would exceed
256 KiB, else append `be32 length` and the payload. -/
def Serializer.writeBlob (s : Serializer) (blob : List Nat) : Except Unit Serializer :=
  if s.data.length + 4 + blob.length > MAX_SERIALIZED_SIZE then .error ()
  else .ok ⟨s.data ++ be32 blob.length ++ blob⟩

/-- `Deserializer::readBE32` in consuming form: fail (`ShortRead`) when fewer
than four bytes remain, else return the big-endian value and the rest. -/
def readBE32 : List Nat → Option (Nat × List Nat)
  | b0 :: b1 :: b2 :: b3 :: rest => some (b0 * 16777216 + b1 * 65536 + b2 * 256 + b3, rest)
  | _ => none

/-- `Deserializer::readByte` in consuming form. -/
def readByte : List Nat → Option (Nat × List Nat)
  | b :: rest => some (b, rest)
  | [] => none

/-- `Deserializer::readBlob` in consuming form: read the 32-bit length, fail
when fewer bytes remain than declared, else return the payload and the rest. -/
def readBlob (l : List Nat) : Option (List Nat × List Nat) :=
  match readBE32 l with
  | none => none
  | some (len, rest) =>
      if len ≤ rest.length then some (rest.take len, rest.drop len) else none

/-- Encode `v` with `writeBlob` into an empty serializer, then decode the
buffer with `readBlob` (spec §8 blob round-trip). -/
def blobRoundTrip (v : List Nat) : Option (List Nat) :=
  match Serializer.writeBlob ⟨[]⟩ v with
  | .error _ => none
  | .ok s => (readBlob s.data).map Prod.fst

/-- Contents of an `n`-byte payload at the moment `SecureAllocator::deallocate`
returns the storage: the code runs `memset(p, 0x42, n)` before release
(secure_vector.h line 75), so every byte reads 0x42. -/
def secureDeallocateContents (n : Nat) (_mem : List Nat) : List Nat :=
  List.replicate n 0x42

/-- One `(key blob, is-ca)` entry of a hop descriptor (`OpenSSHHopKey`). -/
structure OpenSSHHopKey where
  key : List Nat
  key_is_ca : Bool
deriving DecidableEq, Repr

/-- A hop descriptor: `(user, hostname, keys)` (`OpenSSHHopDescriptor`). -/
structure OpenSSHHopDescriptor where
  user : String
  hostname : String
  keys : List OpenSSHHopKey
deriving DecidableEq, Repr

/-- The scan of `OpenSSHHopDescriptor::matchesKey` over the entry list, in
source order: an entry with an empty key returns `false` immediately, a CA
entry is skipped, a non-CA entry equal to the sought blob returns `true`. -/
def matchesKeyList : List OpenSSHHopKey → List Nat → Bool
  | [], _ => false
  | k :: rest, key =>
      if k.key = [] then false
      else if k.key_is_ca then matchesKeyList rest key
      else if k.key ≠ key then matchesKeyList rest key
      else true

/-- `OpenSSHHopDescriptor::matchesKey`. -/
def OpenSSHHopDescriptor.matchesKey (h : OpenSSHHopDescriptor) (key : List Nat) : Bool :=
  matchesKeyList h.keys key

/-- A destination constraint: a `(from-hop, to-hop)` pair
(`OpenSSHSDestinationConstraint`). -/
structure OpenSSHSDestinationConstraint where
  from_hop : OpenSSHHopDescriptor
  to_hop : OpenSSHHopDescriptor
deriving DecidableEq, Repr

/-- The to-key and user checks of `OpenSSHSDestinationConstraint::matches`,
shared by both from-key branches of the source function. -/
def OpenSSHSDestinationConstraint.matchesRest (c : OpenSSHSDestinationConstraint)
    (to_key : List Nat) (user : String) : Bool :=
  if to_key ≠ [] ∧ c.to_hop.matchesKey to_key = false then false
  else if c.to_hop.user ≠ "" ∧ user ≠ "" ∧ c.to_hop.user ≠ user then false
  else true

/-- `OpenSSHSDestinationConstraint::matches` (the `MatchInfo` output channel is
a side effect that does not influence the result and is omitted). -/
def OpenSSHSDestinationConstraint.matches (c : OpenSSHSDestinationConstraint)
    (from_key to_key : List Nat) (user : String) : Bool :=
  if from_key = [] then
    if c.from_hop.hostname ≠ "" ∨ c.from_hop.keys ≠ [] then false
    else c.matchesRest to_key user
  else if ¬ c.from_hop.matchesKey from_key then false
  else c.matchesRest to_key user

/-- A session binding `(host-key, session-id, forwarded)` (`SessionBinding`). -/
structure SessionBinding where
  host_key : List Nat
  session_id : List Nat
  forwarded : Bool
deriving DecidableEq, Repr

/-- The per-session state touched by the claims: the sticky `m_binding_failed`
flag, the binding list `m_session_bindings` and `m_is_forwarded`. -/
structure SessionState where
  binding_failed : Bool
  bindings : List SessionBinding
  is_forwarded : Bool
deriving DecidableEq, Repr

/-- A key entry as held by `KeyManager` (`KeyBase`): public blob, comment,
fingerprint, lifetime bookkeeping, confirm flag, destination constraints and
the derived-class lock state (live material vs. passphrase-encrypted blob). -/
structure KeyBase where
  pubBlob : List Nat
  comment : String
  fingerprint : String
  lifetime_seconds : Nat
  added_time : Nat
  confirm_required : Bool
  dest_constraints : List OpenSSHSDestinationConstraint
  locked : Bool
deriving DecidableEq, Repr

/-- `KeyBase::permittedByConstraints`: true iff some destination constraint
matches (the source loop with early `return true`). -/
def KeyBase.permittedByConstraints (k : KeyBase)
    (from_key to_key : List Nat) (user : String) : Bool :=
  k.dest_constraints.any fun c => c.matches from_key to_key user

/-- The binding-chain walk of `KeyBase::permitted` (the `for` loop over
`session.sessionBindings()`), carrying `from_key`; the last binding is treated
differently from the earlier ones exactly as in the source. -/
def permittedLoop (k : KeyBase) (user : String) (from_key : List Nat) :
    List SessionBinding → Bool
  | [] => true
  | [s] =>
      if s.host_key = [] then false
      else if s.forwarded ∧ user ≠ "" then false
      else if ¬ k.permittedByConstraints from_key s.host_key user then false
      else true
  | s :: rest =>
      if s.host_key = [] then false
      else if ¬ s.forwarded then false
      else if ¬ k.permittedByConstraints from_key s.host_key "" then false
      else permittedLoop k user s.host_key rest

/-- `KeyBase::permitted` (the spec's `identity_permitted`). -/
def KeyBase.permitted (k : KeyBase) (ss : SessionState) (user : String) : Bool :=
  if k.dest_constraints = [] then true
  else if ss.binding_failed then false
  else if ss.bindings = [] then true
  else if ¬ permittedLoop k user [] ss.bindings then false
  else
    match ss.bindings.getLast? with
    | none => true
    | some last =>
        if last.forwarded ∧ user = "" ∧ ¬ k.permittedByConstraints last.host_key [] "" then
          false
        else true

/-- Observer events fanned out by `KeyManager` (`KeyManagerObserver`). -/
inductive Event where
  | keyAdded (pub : List Nat)
  | keyPreRemove (pub : List Nat)
  | keyRemoved (fp : String)
  | keysCleared
  | keyUsed (pub : List Nat)
  | keyDeclined (pub : List Nat)
  | lockedEv
  | unlockedEv
deriving DecidableEq, Repr

/-- `KeyManager` state: key list in insertion order, the agent-wide `m_locked`
flag, `m_failed_attempts`, `m_locked_until` (integral seconds on the steady
clock, may lie in the past), and the trace of emitted observer events. -/
structure KMState where
  keys : List KeyBase
  locked : Bool
  failed_attempts : Nat
  locked_until : Int
  events : List Event
deriving DecidableEq, Repr

/-- The key-list effect of `KeyManager::addKey(type, blob, comment)`: the first
entry with the same public blob (found by `findKey`) is erased, then the new
key is appended. -/
def kmAddKeyList (keys : List KeyBase) (k : KeyBase) : List KeyBase :=
  keys.eraseP (fun x => x.pubBlob == k.pubBlob) ++ [k]

/-- `KeyManager::addKey(AddIdentityMessage&)` on the model state: install the
parsed key (lifetime, confirm flag and destination constraints already set on
`k` by the message parser), then emit `onKeyAdded`. -/
def kmAddKey (km : KMState) (k : KeyBase) : KMState :=
  { km with keys := kmAddKeyList km.keys k, events := km.events ++ [.keyAdded k.pubBlob] }

/-- `KeyManager::removeKey`: no-op when the blob is absent, otherwise emit
`onKeyPreRemove`, erase the entry, emit `onKeyRemoved(fingerprint)`. -/
def kmRemoveKey (km : KMState) (blob : List Nat) : KMState :=
  match km.keys.find? (fun x => x.pubBlob == blob) with
  | none => km
  | some key =>
      { km with keys := km.keys.eraseP (fun x => x.pubBlob == blob),
                events := km.events ++ [.keyPreRemove key.pubBlob, .keyRemoved key.fingerprint] }

/-- `KeyManager::removeAllKeys`: `onKeyPreRemove` for every key in order, clear
the list, `onKeyRemoved` for each captured fingerprint, then `onKeysCleared`. -/
def kmRemoveAll (km : KMState) : KMState :=
  { km with keys := [],
            events := km.events ++ km.keys.map (fun k => .keyPreRemove k.pubBlob)
                      ++ km.keys.map (fun k => .keyRemoved k.fingerprint) ++ [.keysCleared] }

/-- `KeyBase::expired` at steady-clock second `t`: a zero lifetime never
expires, otherwise expired once the elapsed seconds reach the lifetime. -/
def KeyBase.expired (k : KeyBase) (t : Nat) : Bool :=
  if k.lifetime_seconds = 0 then false
  else t - k.added_time ≥ k.lifetime_seconds

/-- `KeyBase::setLifetime`: store the lifetime and reset `m_added_time` to the
moment of the call. -/
def KeyBase.setLifetime (k : KeyBase) (s : Nat) (now : Nat) : KeyBase :=
  { k with lifetime_seconds := s, added_time := now }

/-- The key-list effect of `KeyManager::cleanupExpiredKeys` at second `t`:
every expired entry is removed. -/
def kmCleanupList (keys : List KeyBase) (t : Nat) : List KeyBase :=
  keys.filter fun k => ¬ k.expired t

/-- `KeyManager::listKeys`: the identities whose key passes
`permitted(session, "")`, as `(pub blob, comment)` pairs. -/
def kmListKeys (km : KMState) (ss : SessionState) : List (List Nat × String) :=
  (km.keys.filter fun k => k.permitted ss "").map fun k => (k.pubBlob, k.comment)

/-- `⌊1.8^n⌋`, the back-off schedule `floor(pow(1.8, m_failed_attempts))` of
`KeyManager::unlock`, computed exactly over the rationals: `9^n / 5^n`. -/
def waitTime (n : Nat) : Nat := 9 ^ n / 5 ^ n

/-- Outcome of `KeyManager::unlock` (the thrown exception, or success). -/
inductive UnlockResult where
  | ok
  | errNotLocked
  | errThrottled (remaining : Int)
  | errWrong
  | errKeyUnlock
deriving DecidableEq, Repr

/-- The state mutation of the `catch` block in `KeyManager::unlock`: increment
`m_failed_attempts` and, when it exceeds 2, set `m_locked_until` to
`now + ⌊1.8^m_failed_attempts⌋` seconds. -/
def kmUnlockFailState (st : KMState) (now : Int) : KMState :=
  { st with failed_attempts := st.failed_attempts + 1,
            locked_until :=
              if st.failed_attempts + 1 > 2 then now + (waitTime (st.failed_attempts + 1) : Int)
              else st.locked_until }

/-- `KeyManager::unlock` at steady-clock second `now`. `verifyOk` is the lock
provider's verdict on the passphrase; `keyUnlockFails` is true when unlocking
an individual key raises an error. -/
def kmUnlock (st : KMState) (now : Int) (verifyOk keyUnlockFails : Bool) :
    KMState × UnlockResult :=
  if st.locked = false then (st, .errNotLocked)
  else if now < st.locked_until then
    ({ st with failed_attempts := st.failed_attempts + 1 },
     .errThrottled (st.locked_until - now))
  else if verifyOk = false then (kmUnlockFailState st now, .errWrong)
  else if keyUnlockFails then (kmUnlockFailState st now, .errKeyUnlock)
  else
    ({ st with keys := st.keys.map fun k => { k with locked := false },
               locked := false, failed_attempts := 0,
               events := st.events ++ [.unlockedEv] },
     .ok)

/-- `KeyManager::lock` (provider present): throw `InvalidState` when already
locked, otherwise install the verifier, lock every key, emit `onLocked`, set
`m_locked`. The boolean is false on the error path. -/
def kmLock (st : KMState) : KMState × Bool :=
  if st.locked then (st, false)
  else
    ({ st with keys := st.keys.map fun k => { k with locked := true },
               locked := true, events := st.events ++ [.lockedEv] },
     true)

/-- Replies a session can emit for the dispatched requests. -/
inductive Reply where
  | success
  | failure
  | identities (items : List (List Nat × String))
  | signResponse (sig : List Nat)
deriving DecidableEq, Repr

/-- A framed agent message as seen by `Session::processReal`: the type byte
extracted by the `Message` constructor and the raw frame bytes. -/
structure GenMsg where
  type : Nat
  raw : List Nat
deriving DecidableEq, Repr

/-- The byte string `"session-bind@openssh.com"`. -/
def sessionBindExtName : List Nat := "session-bind@openssh.com".data.map Char.toNat

/-- The four fields of a parsed `session-bind@openssh.com` body
(`OpenSSHSessionBind`). -/
structure SessionBindData where
  host_key : List Nat
  session_id : List Nat
  signature : List Nat
  forwarded : Bool
deriving DecidableEq, Repr

/-- `OpenSSHSessionBind::deserialize` on the bytes after the extension name:
read the four fields, re-parse the host key (`string keytype ‖ blob`) and hand
it to the key factory (`pubParse` abstracts `KeyFactory::createPubKey`
succeeding), and when the signature is non-empty, parse its outer structure
and verify it over the session id (`verify` abstracts
`PubKeyBase::verify(session_id, signature)`). Any failure is an exception,
modelled as `none`. -/
def sessionBindDeserialize (pubParse : List Nat → Bool)
    (verify : List Nat → List Nat → List Nat → Bool) (body : List Nat) :
    Option SessionBindData :=
  match readBlob body with
  | none => none
  | some (hk, r1) =>
  match readBlob r1 with
  | none => none
  | some (sid, r2) =>
  match readBlob r2 with
  | none => none
  | some (sig, r3) =>
  match readByte r3 with
  | none => none
  | some (fwd, _) =>
  match readBlob hk with
  | none => none
  | some (_keytype, hkRest) =>
  match readBlob hkRest with
  | none => none
  | some _ =>
  if ¬ pubParse hk then none
  else if sig ≠ [] then
    match readBlob sig with
    | none => none
    | some (_sigtype, sigRest) =>
    match readBlob sigRest with
    | none => none
    | some _ => if ¬ verify hk sid sig then none else some ⟨hk, sid, sig, fwd ≠ 0⟩
  else some ⟨hk, sid, sig, fwd ≠ 0⟩

/-- Result of a successful `ExtensionMessage` parse: a `session-bind` payload,
or another registered extension that parsed cleanly. -/
inductive ExtParsed where
  | other (name : List Nat)
  | sessionBind (b : SessionBindData)
deriving DecidableEq, Repr

/-- The `ExtensionMessage(msg)` constructor: check the type byte and non-empty
data, skip the outer length and type (`Message::deserialize`), read the
extension name, ask the factory for the decoder — `createMessageExtension`
THROWS for a name absent from the message-extension registry — and run the
decoder. `registry` is the registered name set (the library registers exactly
`session-bind@openssh.com`; embedders may add more, `embedderParseOk`
abstracting whether such a decoder succeeds). -/
def extMsgParse (registry : List (List Nat)) (embedderParseOk : Bool)
    (pubParse : List Nat → Bool) (verify : List Nat → List Nat → List Nat → Bool)
    (msg : GenMsg) : Except Unit ExtParsed :=
  if msg.type ≠ 27 then .error ()
  else if msg.raw = [] then .error ()
  else
    match readBE32 msg.raw with
    | none => .error ()
    | some (_, r1) =>
    match readByte r1 with
    | none => .error ()
    | some (_, r2) =>
    match readBlob r2 with
    | none => .error ()
    | some (name, body) =>
    if name ∉ registry then .error ()
    else if name = sessionBindExtName then
      match sessionBindDeserialize pubParse verify body with
      | none => .error ()
      | some b => .ok (.sessionBind b)
    else if embedderParseOk then .ok (.other name) else .error ()

/-- External inputs of one dispatch step: parse outcomes of the sub-parsers not
under claim, the embedder's hooks, the crypto oracles and the clock. -/
structure Oracles where
  addParse : Option KeyBase
  removeParse : Option (List Nat)
  signParse : Option (List Nat × List Nat × Nat)
  userauthParse : Option (String × List Nat)
  confirmOk : Bool
  policyConfirm : Bool
  signResult : Option (List Nat)
  extConsumed : Bool
  extRegistry : List (List Nat)
  embedderParseOk : Bool
  pubParse : List Nat → Bool
  verify : List Nat → List Nat → List Nat → Bool
  lockParse : Option (List Nat)
  unlockParse : Option (List Nat)
  verifyPassOk : Bool
  keyUnlockFails : Bool
  now : Int

/-- `Session::processExtension`: parse the `ExtensionMessage` (any exception —
parse or verify — lands in the `catch` block, which sets `m_binding_failed`,
clears `m_session_bindings` and replies FAILURE); then give the embedder a
chance; then reply FAILURE for a name other than `session-bind@openssh.com`;
else OR-in the forwarded bit, append the binding and reply SUCCESS. -/
def processExtension (o : Oracles) (ss : SessionState) (msg : GenMsg) :
    SessionState × Reply :=
  match extMsgParse o.extRegistry o.embedderParseOk o.pubParse o.verify msg with
  | .error _ =>
      ({ binding_failed := true, bindings := [], is_forwarded := ss.is_forwarded }, .failure)
  | .ok p =>
      if o.extConsumed then (ss, .success)
      else
        match p with
        | .other _ => (ss, .failure)
        | .sessionBind b =>
            ({ ss with is_forwarded := ss.is_forwarded || b.forwarded,
                       bindings := ss.bindings ++ [⟨b.host_key, b.session_id, b.forwarded⟩] },
             .success)

/-- The confirmation-and-signing tail of `Session::processSignRequest`: ask the
embedder when the key's flag or the external policy requires it (a denial
emits `onKeyDeclined` and replies FAILURE), then sign (a crypto failure
replies FAILURE), emit `onKeyUsed` and reply SIGN_RESPONSE. -/
def confirmAndSign (o : Oracles) (km : KMState) (key : KeyBase) : KMState × Reply :=
  if (key.confirm_required || o.policyConfirm) ∧ o.confirmOk = false then
    ({ km with events := km.events ++ [.keyDeclined key.pubBlob] }, .failure)
  else
    match o.signResult with
    | none => (km, .failure)
    | some sig =>
        ({ km with events := km.events ++ [.keyUsed key.pubBlob] }, .signResponse sig)

/-- `Session::processSignRequest`: parse, look up the key by blob; when it has
destination constraints, require at least one binding, parse the signed data
as a user-auth request, check `permitted(session, username)` and require the
user-auth session id to equal the last binding's; then confirm and sign.
Every thrown error replies FAILURE. -/
def processSignRequest (o : Oracles) (km : KMState) (ss : SessionState) :
    KMState × Reply :=
  match o.signParse with
  | none => (km, .failure)
  | some (keyBlob, _data, _flags) =>
  match km.keys.find? (fun k => k.pubBlob == keyBlob) with
  | none => (km, .failure)
  | some key =>
  if key.dest_constraints = [] then confirmAndSign o km key
  else if ss.bindings = [] then (km, .failure)
  else
    match o.userauthParse with
    | none => (km, .failure)
    | some (username, sessionId) =>
    if ¬ key.permitted ss username then (km, .failure)
    else
      match ss.bindings.getLast? with
      | none => (km, .failure)
      | some last =>
          if sessionId ≠ last.session_id then (km, .failure)
          else confirmAndSign o km key

/-- `Session::processReal`: the lock gate (FAILURE for every type but UNLOCK
while `KeyManager.locked`, touching nothing), then the dispatch table over the
message type byte. The suspension threads serialize per session and are
modelled as the synchronous call they join on. -/
def processReal (o : Oracles) (km : KMState) (ss : SessionState) (msg : GenMsg) :
    KMState × SessionState × Reply :=
  if km.locked ∧ msg.type ≠ 23 then (km, ss, .failure)
  else if msg.type = 17 ∨ msg.type = 25 then
    match o.addParse with
    | none => (km, ss, .failure)
    | some k => (kmAddKey km k, ss, .success)
  else if msg.type = 18 then
    match o.removeParse with
    | none => (km, ss, .failure)
    | some blob => (kmRemoveKey km blob, ss, .success)
  else if msg.type = 19 ∨ msg.type = 9 then (kmRemoveAll km, ss, .success)
  else if msg.type = 13 then
    let r := processSignRequest o km ss
    (r.1, ss, r.2)
  else if msg.type = 11 then (km, ss, .identities (kmListKeys km ss))
  else if msg.type = 27 then
    let r := processExtension o ss msg
    (km, r.1, r.2)
  else if msg.type = 22 then
    match o.lockParse with
    | none => (km, ss, .failure)
    | some _ =>
        let r := kmLock km
        (r.1, ss, if r.2 then .success else .failure)
  else if msg.type = 23 then
    match o.unlockParse with
    | none => (km, ss, .failure)
    | some _ =>
        let r := kmUnlock km o.now o.verifyPassOk o.keyUnlockFails
        (r.1, ss, match r.2 with | .ok => .success | _ => .failure)
  else (km, ss, .failure)

/-- Spec-side hop-match predicate, refined from the observed scan: some
`is_ca = false` entry equals the sought blob, every entry before it has a
non-empty key, and the matching entry itself is non-empty. -/
def hopMatchSpec (ks : List OpenSSHHopKey) (b : List Nat) : Prop :=
  ∃ l1 k l2, ks = l1 ++ k :: l2 ∧ (∀ x ∈ l1, x.key ≠ []) ∧
    k.key ≠ [] ∧ k.key_is_ca = false ∧ k.key = b

/-- The KeyManager invariant: any two live keys have distinct public blobs. -/
def blobsNodup (keys : List KeyBase) : Prop :=
  (keys.map KeyBase.pubBlob).Nodup

/-- The raw bytes of a framed `session-bind@openssh.com` EXTENSION request:
outer length (discarded by the parser), type byte 27, the extension name as a
string, then the extension body `blob host-key ‖ blob session-id ‖
blob signature ‖ byte forwarded`. -/
def mkSessionBindRaw (hk sid sig : List Nat) (fwd : Nat) : List Nat :=
  be32 0 ++ 27 :: (be32 sessionBindExtName.length ++ sessionBindExtName ++
    (be32 hk.length ++ hk ++ (be32 sid.length ++ sid ++
      (be32 sig.length ++ sig ++ [fwd]))))

/-- The raw bytes of a framed EXTENSION request carrying only a name. -/
def mkNamedExtRaw (name : List Nat) : List Nat :=
  be32 0 ++ 27 :: (be32 name.length ++ name)

/-- A concrete key with no constraints, used to instantiate theorems. -/
def sampleKey : KeyBase :=
  { pubBlob := [1], comment := "k1", fingerprint := "fp1", lifetime_seconds := 0,
    added_time := 0, confirm_required := false, dest_constraints := [], locked := false }

/-- A second concrete key with a distinct public blob. -/
def sampleKey2 : KeyBase :=
  { pubBlob := [2], comment := "k2", fingerprint := "fp2", lifetime_seconds := 0,
    added_time := 0, confirm_required := false, dest_constraints := [], locked := false }

/-- A concrete destination constraint (empty from-hop, one-key to-hop). -/
def sampleConstraint : OpenSSHSDestinationConstraint :=
  { from_hop := { user := "", hostname := "", keys := [] },
    to_hop := { user := "", hostname := "example.com", keys := [⟨[5], false⟩] } }

/-- A concrete key carrying a destination constraint. -/
def constrainedKey : KeyBase :=
  { sampleKey with pubBlob := [3], comment := "k3", fingerprint := "fp3",
                   dest_constraints := [sampleConstraint] }

/-- A concrete unlocked KeyManager state holding `sampleKey`. -/
def sampleKM : KMState :=
  { keys := [sampleKey], locked := false, failed_attempts := 0,
    locked_until := -10, events := [] }

/-- A concrete locked KeyManager state. -/
def lockedKM : KMState :=
  { keys := [sampleKey], locked := true, failed_attempts := 0,
    locked_until := 0, events := [] }

/-- A fresh session state. -/
def emptySession : SessionState :=
  { binding_failed := false, bindings := [], is_forwarded := false }

/-- A poisoned session state (`m_binding_failed` set). -/
def failedSession : SessionState :=
  { binding_failed := true, bindings := [], is_forwarded := false }

/-- Concrete oracles: no sub-message parses are provided, the embedder consumes
nothing, only the built-in `session-bind@openssh.com` is registered, and the
crypto oracles always succeed. -/
def sampleOracles : Oracles :=
  { addParse := none, removeParse := none, signParse := none, userauthParse := none,
    confirmOk := true, policyConfirm := false, signResult := none,
    extConsumed := false, extRegistry := [sessionBindExtName], embedderParseOk := true,
    pubParse := fun _ => true, verify := fun _ _ _ => true,
    lockParse := none, unlockParse := none, verifyPassOk := true,
    keyUnlockFails := false, now := 0 }

/-- The byte string of an extension name the library does not register. -/
def otherExtName : List Nat := "foo@example.com".data.map Char.toNat

/-- A well-formed EXTENSION request with the unregistered name. -/
def otherExtMsg : GenMsg := ⟨27, mkNamedExtRaw otherExtName⟩

/-- Oracles whose registry also holds the embedder-registered `otherExtName`. -/
def c9Oracles : Oracles :=
  { sampleOracles with extRegistry := [sessionBindExtName, otherExtName] }

/-- The hop of the C6 analysis: an empty-keyed entry followed by a non-CA entry
whose key is `[1]`. -/
def c6Hop : OpenSSHHopDescriptor :=
  { user := "", hostname := "h", keys := [⟨[], false⟩, ⟨[1], false⟩] }

theorem readBE32_be32 (n : Nat) (rest : List Nat) (h : n < 4294967296) :
    readBE32 (be32 n ++ rest) = some (n, rest) := by
  simp only [be32, List.cons_append, List.nil_append, readBE32, Option.some.injEq,
    Prod.mk.injEq, and_true]
  omega

theorem readBlob_encode (v rest : List Nat) (h : v.length < 4294967296) :
    readBlob (be32 v.length ++ (v ++ rest)) = some (v, rest) := by
  simp only [readBlob, readBE32_be32 v.length (v ++ rest) h]
  rw [if_pos (by simp)]
  rw [List.take_left, List.drop_left]

/-- C7 (amended). For every byte vector `v` with `|v| + 4 ≤ 256 KiB` —
so that the length header also fits the frame budget — encoding `v` with
`Serializer::writeBlob` into an empty serializer and decoding the result with
`Deserializer::readBlob` yields `v` again. -/
theorem C7_blob_round_trip (v : List Nat) (h : v.length + 4 ≤ MAX_SERIALIZED_SIZE) :
    blobRoundTrip v = some v := by
  have hM : MAX_SERIALIZED_SIZE = 262144 := rfl
  have hcond : ¬ ((⟨[]⟩ : Serializer).data.length + 4 + v.length > MAX_SERIALIZED_SIZE) := by
    show ¬ (([] : List Nat).length + 4 + v.length > MAX_SERIALIZED_SIZE)
    simp only [List.length_nil]
    omega
  have hlt : v.length < 4294967296 := by omega
  have henc := readBlob_encode v [] hlt
  rw [List.append_nil] at henc
  unfold blobRoundTrip Serializer.writeBlob
  rw [if_neg hcond]
  simp [henc]

/-- Every byte vector of length 262141 is rejected by `writeBlob` on an empty
serializer (the 4-byte header pushes the buffer past 256 KiB), so the blob
round trip returns nothing. -/
theorem blobRoundTrip_rejects_262141 (v : List Nat) (hv : v.length = 262141) :
    blobRoundTrip v = none := by
  have henc : Serializer.writeBlob ⟨[]⟩ v = .error () := by
    unfold Serializer.writeBlob
    rw [if_pos]
    rw [hv]
    decide
  unfold blobRoundTrip
  rw [henc]

theorem C7_blob_round_trip_witness :
    ([1, 2, 3] : List Nat).length + 4 ≤ MAX_SERIALIZED_SIZE ∧
      blobRoundTrip [1, 2, 3] = some [1, 2, 3] :=
  ⟨by decide, C7_blob_round_trip [1, 2, 3] (by decide)⟩

/-- C7 counterexample. The vector of 262141 zero bytes has length `< 256 KiB`,
yet `writeBlob` on an empty serializer rejects it (the 4-byte length header
pushes the buffer past the 256 KiB budget), so the round trip of the claim
does not return the vector. -/
theorem C7_counterexample :
    (List.replicate 262141 (0 : Nat)).length < MAX_SERIALIZED_SIZE ∧
      blobRoundTrip (List.replicate 262141 (0 : Nat)) = none := by
  constructor
  · rw [List.length_replicate]
    decide
  · exact blobRoundTrip_rejects_262141 _ (by rw [List.length_replicate])

/-- C8: at release, `SecureAllocator::deallocate` overwrites the payload with
byte `0x42`, not zero — evaluated at a one-byte buffer holding `0x07`. -/
theorem C8_deallocate_writes_0x42 :
    secureDeallocateContents 1 [7] = [66] ∧ (66 : Nat) ≠ 0 := by decide

/-- C10: `setLifetime(s)` resets the added-at timestamp to the call instant,
so the key is expired at time `t` exactly when `s` is nonzero and at least `s`
seconds have elapsed since that call — independent of when the key was
originally added. -/
theorem C10_setLifetime_resets_expiry (k : KeyBase) (s now t : Nat) :
    ((k.setLifetime s now).expired t = true) ↔ (s ≠ 0 ∧ s ≤ t - now) := by
  by_cases hs : s = 0 <;>
    simp [KeyBase.setLifetime, KeyBase.expired, hs, ge_iff_le]

theorem C10_setLifetime_resets_expiry_witness :
    ((sampleKey.setLifetime 3 5).expired 12 = true) ↔ (3 ≠ 0 ∧ 3 ≤ 12 - 5) :=
  C10_setLifetime_resets_expiry sampleKey 3 5 12

/-- C3: while the KeyManager is locked, every message whose type is not UNLOCK
(23) is answered with FAILURE, and the dispatch leaves both the KeyManager
state (keys, flags, observer-event trace) and the session state untouched. -/
theorem C3_lock_gate (o : Oracles) (km : KMState) (ss : SessionState) (msg : GenMsg)
    (hl : km.locked = true) (ht : msg.type ≠ 23) :
    processReal o km ss msg = (km, ss, .failure) := by
  simp [processReal, hl, ht]

theorem C3_lock_gate_witness :
    lockedKM.locked = true ∧ (((⟨13, []⟩ : GenMsg)).type ≠ 23) ∧
      processReal sampleOracles lockedKM emptySession ⟨13, []⟩ =
        (lockedKM, emptySession, .failure) :=
  ⟨rfl, by decide, C3_lock_gate sampleOracles lockedKM emptySession ⟨13, []⟩ rfl (by decide)⟩

theorem permittedLoop_false_of_last_forwarded (bs : List SessionBinding) (k : KeyBase)
    (user : String) (fk : List Nat) (last : SessionBinding)
    (hl : bs.getLast? = some last) (hfwd : last.forwarded = true) (hu : user ≠ "") :
    permittedLoop k user fk bs = false := by
  induction bs generalizing fk with
  | nil => simp at hl
  | cons s rest ih =>
    cases rest with
    | nil =>
        rw [List.getLast?_singleton, Option.some.injEq] at hl
        subst hl
        simp only [permittedLoop]
        split_ifs with h1 h2 h3 <;> try rfl
        exact absurd ⟨hfwd, hu⟩ h2
    | cons s2 rest2 =>
        rw [List.getLast?_cons_cons] at hl
        simp only [permittedLoop]
        split_ifs <;> try rfl
        exact ih s.host_key hl

theorem permittedLoop_false_of_nonlast_unforwarded (bs : List SessionBinding) (k : KeyBase)
    (user : String) (fk : List Nat) (b : SessionBinding)
    (hm : b ∈ bs.dropLast) (hb : b.forwarded = false) :
    permittedLoop k user fk bs = false := by
  induction bs generalizing fk with
  | nil => simp at hm
  | cons s rest ih =>
    cases rest with
    | nil => simp at hm
    | cons s2 rest2 =>
        rw [List.dropLast_cons₂, List.mem_cons] at hm
        simp only [permittedLoop]
        cases hm with
        | inl he =>
            subst he
            split_ifs with h1 h2 <;> try rfl
            rw [hb] at h2
            simp at h2
        | inr hmem =>
            split_ifs <;> try rfl
            exact ih s.host_key hmem

/-- C1: the permit decision of `KeyBase::permitted` (the spec's
`identity_permitted`), ordered as in the source: a key without destination
constraints is permitted; with constraints, a poisoned session is refused; an
unpoisoned session without bindings is permitted; and on a walked chain the
decision refuses when the last binding is forwarded and the user is non-empty,
and refuses when any non-last binding is not forwarded. -/
theorem C1_identity_permitted (k : KeyBase) (ss : SessionState) (user : String) :
    (k.dest_constraints = [] → k.permitted ss user = true) ∧
    (k.dest_constraints ≠ [] → ss.binding_failed = true → k.permitted ss user = false) ∧
    (k.dest_constraints ≠ [] → ss.binding_failed = false → ss.bindings = [] →
      k.permitted ss user = true) ∧
    (∀ last, k.dest_constraints ≠ [] → ss.binding_failed = false →
      ss.bindings.getLast? = some last → last.forwarded = true → user ≠ "" →
      k.permitted ss user = false) ∧
    (∀ b, k.dest_constraints ≠ [] → ss.binding_failed = false →
      b ∈ ss.bindings.dropLast → b.forwarded = false →
      k.permitted ss user = false) := by
  refine ⟨?_, ?_, ?_, ?_, ?_⟩
  · intro h
    simp [KeyBase.permitted, h]
  · intro h hf
    simp [KeyBase.permitted, h, hf]
  · intro h hf hb
    simp [KeyBase.permitted, h, hf, hb]
  · intro last h hf hl hfwd hu
    have hne : ss.bindings ≠ [] := by
      intro e
      rw [e] at hl
      simp at hl
    have hloop := permittedLoop_false_of_last_forwarded ss.bindings k user [] last hl hfwd hu
    simp [KeyBase.permitted, h, hf, hne, hloop]
  · intro b h hf hm hb
    have hne : ss.bindings ≠ [] :=
      List.ne_nil_of_mem (List.dropLast_subset ss.bindings hm)
    have hloop := permittedLoop_false_of_nonlast_unforwarded ss.bindings k user [] b hm hb
    simp [KeyBase.permitted, h, hf, hne, hloop]

theorem C1_identity_permitted_witness :
    constrainedKey.dest_constraints ≠ [] ∧ failedSession.binding_failed = true ∧
      constrainedKey.permitted failedSession "" = false :=
  ⟨by decide, rfl, (C1_identity_permitted constrainedKey failedSession "").2.1 (by decide) rfl⟩

theorem matchesKeyList_sound (b : List Nat) (ks : List OpenSSHHopKey)
    (h : matchesKeyList ks b = true) : hopMatchSpec ks b := by
  induction ks with
  | nil => simp [matchesKeyList] at h
  | cons k0 rest ih =>
      by_cases h1 : k0.key = []
      · rw [matchesKeyList, if_pos h1] at h
        exact absurd h (by simp)
      · by_cases h2 : k0.key_is_ca = true
        · rw [matchesKeyList, if_neg h1, if_pos h2] at h
          obtain ⟨l1, k, l2, heq, hl1, hk, hca, hkb⟩ := ih h
          refine ⟨k0 :: l1, k, l2, by rw [heq, List.cons_append], ?_, hk, hca, hkb⟩
          intro x hx
          rcases List.mem_cons.mp hx with he | hm
          · rw [he]; exact h1
          · exact hl1 x hm
        · by_cases h3 : k0.key = b
          · have hca : k0.key_is_ca = false := by
              revert h2; cases k0.key_is_ca <;> simp
            exact ⟨[], k0, rest, rfl, by simp, h1, hca, h3⟩
          · rw [matchesKeyList, if_neg h1, if_neg h2, if_pos h3] at h
            obtain ⟨l1, k, l2, heq, hl1, hk, hca, hkb⟩ := ih h
            refine ⟨k0 :: l1, k, l2, by rw [heq, List.cons_append], ?_, hk, hca, hkb⟩
            intro x hx
            rcases List.mem_cons.mp hx with he | hm
            · rw [he]; exact h1
            · exact hl1 x hm

theorem matchesKeyList_complete (b : List Nat) (ks : List OpenSSHHopKey)
    (h : hopMatchSpec ks b) : matchesKeyList ks b = true := by
  induction ks with
  | nil =>
      obtain ⟨l1, k, l2, heq, -⟩ := h
      simp at heq
  | cons k0 rest ih =>
      obtain ⟨l1, k, l2, heq, hl1, hk, hca, hkb⟩ := h
      cases l1 with
      | nil =>
          rw [List.nil_append] at heq
          injection heq with he ht
          rw [matchesKeyList, if_neg (by rw [he]; exact hk)]
          rw [if_neg (by rw [he, hca]; exact Bool.false_ne_true)]
          rw [if_neg (by rw [he, hkb]; exact not_ne_iff.mpr rfl)]
      | cons a l1t =>
          injection heq with he ht
          have h1 : k0.key ≠ [] := by
            rw [he]; exact hl1 a (List.mem_cons_self a l1t)
          have hrest : matchesKeyList rest b = true :=
            ih ⟨l1t, k, l2, ht, fun x hx => hl1 x (List.mem_cons_of_mem a hx), hk, hca, hkb⟩
          rw [matchesKeyList, if_neg h1]
          split_ifs <;> first | rfl | exact hrest

/-- C6 (amended): a hop matches a provided key blob iff some `is_ca = false`
entry with a non-empty key equals that blob and every entry before it in the
list has a non-empty key; an entry with an empty key aborts the scan with a
refusal, and CA entries never contribute a match. -/
theorem C6_hop_match_iff (h : OpenSSHHopDescriptor) (b : List Nat) :
    h.matchesKey b = true ↔ hopMatchSpec h.keys b :=
  ⟨matchesKeyList_sound b h.keys, matchesKeyList_complete b h.keys⟩

/-- C6 counterexample: `c6Hop` has an `is_ca = false` entry whose key equals
`[1]` — so the claim says it matches — yet `matchesKey` refuses because an
empty-keyed entry precedes it. -/
theorem C6_counterexample :
    c6Hop.matchesKey [1] = false ∧
      (c6Hop.keys.any fun k => !k.key_is_ca && k.key == [1]) = true := by
  decide

theorem C6_hop_match_iff_witness :
    (c6Hop.matchesKey [1] = true) ↔ hopMatchSpec c6Hop.keys [1] :=
  C6_hop_match_iff c6Hop [1]

theorem mem_eraseP_pubBlob_ne (keys : List KeyBase) (b : List Nat)
    (hnd : (keys.map KeyBase.pubBlob).Nodup) :
    ∀ x ∈ keys.eraseP (fun y => y.pubBlob == b), x.pubBlob ≠ b := by
  induction keys with
  | nil => simp
  | cons k0 rest ih =>
      rw [List.map_cons, List.nodup_cons] at hnd
      obtain ⟨hnotin, hndr⟩ := hnd
      by_cases hp : (k0.pubBlob == b) = true
      · rw [@List.eraseP_cons_of_pos _ k0 rest (fun y => y.pubBlob == b) hp]
        intro x hx hxb
        apply hnotin
        rw [beq_iff_eq.mp hp, ← hxb]
        exact List.mem_map_of_mem KeyBase.pubBlob hx
      · rw [@List.eraseP_cons_of_neg _ k0 rest (fun y => y.pubBlob == b) hp]
        intro x hx
        rcases List.mem_cons.mp hx with he | hm
        · rw [he]
          intro hc
          exact hp (beq_iff_eq.mpr hc)
        · exact ih hndr x hm

theorem blobsNodup_eraseP (keys : List KeyBase) (p : KeyBase → Bool)
    (h : blobsNodup keys) : blobsNodup (keys.eraseP p) :=
  List.Nodup.sublist ((List.eraseP_sublist keys).map KeyBase.pubBlob) h

theorem blobsNodup_map_locked (keys : List KeyBase) (v : Bool)
    (h : blobsNodup keys) :
    blobsNodup (keys.map fun k => { k with locked := v }) := by
  show (List.map KeyBase.pubBlob (keys.map fun k => { k with locked := v })).Nodup
  rw [List.map_map]
  exact h

/-- C5: blob-uniqueness of the key list is preserved by every KeyManager
operation. `addKey` erases the first entry carrying the new key's public blob
before appending the new key, so no duplicate is introduced; remove, clear,
the expiry sweep, lock and unlock only delete entries or rewrite lock state. -/
theorem C5_blob_uniqueness (km : KMState) (k : KeyBase) (blob : List Nat) (t : Nat)
    (now : Int) (vOk kFail : Bool) (h : blobsNodup km.keys) :
    blobsNodup (kmAddKey km k).keys ∧
    blobsNodup (kmRemoveKey km blob).keys ∧
    blobsNodup (kmRemoveAll km).keys ∧
    blobsNodup (kmCleanupList km.keys t) ∧
    blobsNodup (kmLock km).1.keys ∧
    blobsNodup (kmUnlock km now vOk kFail).1.keys := by
  refine ⟨?_, ?_, ?_, ?_, ?_, ?_⟩
  · show blobsNodup (kmAddKeyList km.keys k)
    unfold kmAddKeyList blobsNodup
    rw [List.map_append, List.nodup_append]
    refine ⟨blobsNodup_eraseP km.keys _ h, List.nodup_singleton _, ?_⟩
    intro a ha hb
    rw [List.map_singleton, List.mem_singleton] at hb
    obtain ⟨x, hx, hxa⟩ := List.mem_map.mp ha
    exact mem_eraseP_pubBlob_ne km.keys k.pubBlob h x hx (hxa.trans hb)
  · unfold kmRemoveKey
    cases hf : km.keys.find? (fun x => x.pubBlob == blob) with
    | none => exact h
    | some key => exact blobsNodup_eraseP km.keys _ h
  · show blobsNodup []
    simp [blobsNodup]
  · exact List.Nodup.sublist ((List.filter_sublist km.keys).map KeyBase.pubBlob) h
  · unfold kmLock
    split_ifs with hl
    · exact h
    · exact blobsNodup_map_locked km.keys true h
  · unfold kmUnlock
    split_ifs <;> first
      | exact h
      | exact blobsNodup_map_locked km.keys false h

theorem C5_blob_uniqueness_witness :
    blobsNodup sampleKM.keys ∧
      (blobsNodup (kmAddKey sampleKM sampleKey2).keys ∧
       blobsNodup (kmRemoveKey sampleKM [1]).keys ∧
       blobsNodup (kmRemoveAll sampleKM).keys ∧
       blobsNodup (kmCleanupList sampleKM.keys 0) ∧
       blobsNodup (kmLock sampleKM).1.keys ∧
       blobsNodup (kmUnlock sampleKM 0 true false).1.keys) :=
  ⟨by show (sampleKM.keys.map KeyBase.pubBlob).Nodup; decide,
   C5_blob_uniqueness sampleKM sampleKey2 [1] 0 0 true false
     (by show (sampleKM.keys.map KeyBase.pubBlob).Nodup; decide)⟩

theorem waitTime_eq_floor (n : Nat) : waitTime n = Nat.floor ((1.8 : ℚ) ^ n) := by
  have h18 : (1.8 : ℚ) = 9 / 5 := by norm_num
  rw [waitTime, h18, div_pow]
  rw [show ((9 : ℚ) ^ n) = ((9 ^ n : ℕ) : ℚ) by push_cast; ring]
  rw [show ((5 : ℚ) ^ n) = ((5 ^ n : ℕ) : ℚ) by push_cast; ring]
  rw [Nat.floor_div_nat, Nat.floor_natCast]

/-- C4: `KeyManager::unlock` while locked. Inside the back-off window it bumps
`failed_attempts` and throws Throttled carrying the remaining wait; a wrong
passphrase or a per-key unlock error bumps `failed_attempts` and, once that
exceeds 2, pushes `locked_until` to `now + ⌊1.8^failed_attempts⌋` seconds
before re-throwing; success unlocks every key, emits `onUnlocked`, clears
`failed_attempts` and clears the locked flag. -/
theorem C4_unlock_behaviour (st : KMState) (now : Int) (vOk kFail : Bool)
    (hl : st.locked = true) :
    (now < st.locked_until →
      kmUnlock st now vOk kFail =
        ({ st with failed_attempts := st.failed_attempts + 1 },
         .errThrottled (st.locked_until - now))) ∧
    (st.locked_until ≤ now → vOk = false →
      kmUnlock st now vOk kFail =
        ({ st with failed_attempts := st.failed_attempts + 1,
                   locked_until :=
                     if st.failed_attempts + 1 > 2 then
                       now + (waitTime (st.failed_attempts + 1) : Int)
                     else st.locked_until }, .errWrong)) ∧
    (st.locked_until ≤ now → vOk = true → kFail = true →
      kmUnlock st now vOk kFail =
        ({ st with failed_attempts := st.failed_attempts + 1,
                   locked_until :=
                     if st.failed_attempts + 1 > 2 then
                       now + (waitTime (st.failed_attempts + 1) : Int)
                     else st.locked_until }, .errKeyUnlock)) ∧
    (st.locked_until ≤ now → vOk = true → kFail = false →
      kmUnlock st now vOk kFail =
        ({ st with keys := st.keys.map fun k => { k with locked := false },
                   locked := false, failed_attempts := 0,
                   events := st.events ++ [.unlockedEv] }, .ok)) ∧
    (∀ m, waitTime m = Nat.floor ((1.8 : ℚ) ^ m)) := by
  refine ⟨?_, ?_, ?_, ?_, waitTime_eq_floor⟩
  · intro h
    simp [kmUnlock, hl, h]
  · intro h hv
    simp [kmUnlock, kmUnlockFailState, hl, not_lt.mpr h, hv]
  · intro h hv hk
    simp [kmUnlock, kmUnlockFailState, hl, not_lt.mpr h, hv, hk]
  · intro h hv hk
    simp [kmUnlock, hl, not_lt.mpr h, hv, hk]

theorem C4_unlock_behaviour_witness :
    lockedKM.locked = true ∧ (-5 : Int) < lockedKM.locked_until ∧
      kmUnlock lockedKM (-5) true false =
        ({ lockedKM with failed_attempts := lockedKM.failed_attempts + 1 },
         .errThrottled (lockedKM.locked_until - (-5))) :=
  ⟨rfl, by decide, (C4_unlock_behaviour lockedKM (-5) true false rfl).1 (by decide)⟩

/-- C2: (1) any EXTENSION request whose parse raises — including a session-bind
whose non-empty signature fails to verify — sets the sticky `binding_failed`
flag, clears all session bindings and replies FAILURE; (2) `processExtension`
never clears the flag once set; (3) with the flag set, every sign request for
a key holding destination constraints is refused; (4) a framed session-bind
whose well-formed non-empty signature fails `verify` over the session id is
exactly such a parse failure. -/
theorem C2_extension_failure_poisons (o : Oracles) (ss : SessionState) (msg : GenMsg)
    (km : KMState) :
    (extMsgParse o.extRegistry o.embedderParseOk o.pubParse o.verify msg = .error () →
      processExtension o ss msg =
        ({ binding_failed := true, bindings := [], is_forwarded := ss.is_forwarded },
         .failure)) ∧
    (ss.binding_failed = true → (processExtension o ss msg).1.binding_failed = true) ∧
    (∀ keyBlob data flags key, ss.binding_failed = true →
      o.signParse = some (keyBlob, data, flags) →
      km.keys.find? (fun k => k.pubBlob == keyBlob) = some key →
      key.dest_constraints ≠ [] →
      processSignRequest o km ss = (km, .failure)) ∧
    (∀ hk sid sig fwd kt hkRest p2 st1 sigRest p3,
      sessionBindExtName ∈ o.extRegistry →
      hk.length < 4294967296 → sid.length < 4294967296 → sig.length < 4294967296 →
      readBlob hk = some (kt, hkRest) → readBlob hkRest = some p2 →
      o.pubParse hk = true → sig ≠ [] →
      readBlob sig = some (st1, sigRest) → readBlob sigRest = some p3 →
      o.verify hk sid sig = false →
      extMsgParse o.extRegistry o.embedderParseOk o.pubParse o.verify
        ⟨27, mkSessionBindRaw hk sid sig fwd⟩ = .error ()) := by
  refine ⟨?_, ?_, ?_, ?_⟩
  · intro h
    simp [processExtension, h]
  · intro h
    unfold processExtension
    split
    · rfl
    · split_ifs
      · exact h
      · split
        · exact h
        · exact h
  · intro keyBlob data flags key hbf hsp hfind hdc
    have hperm : ∀ u, key.permitted ss u = false := fun u => by
      simp [KeyBase.permitted, hdc, hbf]
    by_cases hbe : ss.bindings = []
    · simp [processSignRequest, hsp, hfind, hdc, hbe]
    · cases hua : o.userauthParse with
      | none => simp [processSignRequest, hsp, hfind, hdc, hbe, hua]
      | some p =>
          simp [processSignRequest, hsp, hfind, hdc, hbe, hua, hperm]
  · intro hk sid sig fwd kt hkRest p2 st1 sigRest p3 hreg hhk hsid hsig hk1 hk2 hpub
      hsne hs1 hs2 hver
    have e0 : ∀ rest : List Nat, readBE32 (be32 0 ++ rest) = some (0, rest) :=
      fun rest => readBE32_be32 0 rest (by decide)
    have eName : ∀ rest : List Nat,
        readBlob (be32 sessionBindExtName.length ++ (sessionBindExtName ++ rest)) =
          some (sessionBindExtName, rest) :=
      fun rest => readBlob_encode sessionBindExtName rest (by decide)
    have eHk : ∀ rest : List Nat,
        readBlob (be32 hk.length ++ (hk ++ rest)) = some (hk, rest) :=
      fun rest => readBlob_encode hk rest hhk
    have eSid : ∀ rest : List Nat,
        readBlob (be32 sid.length ++ (sid ++ rest)) = some (sid, rest) :=
      fun rest => readBlob_encode sid rest hsid
    have eSig : ∀ rest : List Nat,
        readBlob (be32 sig.length ++ (sig ++ rest)) = some (sig, rest) :=
      fun rest => readBlob_encode sig rest hsig
    simp [extMsgParse, mkSessionBindRaw, e0, eName, eHk, eSid, eSig, readByte,
      sessionBindDeserialize, hreg, hk1, hk2, hpub, hsne, hs1, hs2, hver]

theorem C2_extension_failure_poisons_witness :
    extMsgParse sampleOracles.extRegistry sampleOracles.embedderParseOk
        sampleOracles.pubParse sampleOracles.verify ⟨27, []⟩ = .error () ∧
      processExtension sampleOracles emptySession ⟨27, []⟩ =
        ({ binding_failed := true, bindings := [],
           is_forwarded := emptySession.is_forwarded }, .failure) :=
  ⟨rfl,
   (C2_extension_failure_poisons sampleOracles emptySession ⟨27, []⟩ sampleKM).1 rfl⟩

/-- C9 (amended): an EXTENSION request whose name is registered in the
message-extension registry and whose body parses cleanly, when the embedder
does not consume it and it is not `session-bind@openssh.com`, is answered
FAILURE with the session state untouched. (An unregistered name instead makes
the factory throw inside the parse, which poisons the session.) -/
theorem C9_unknown_extension_reply (o : Oracles) (ss : SessionState) (msg : GenMsg)
    (name : List Nat)
    (hp : extMsgParse o.extRegistry o.embedderParseOk o.pubParse o.verify msg =
      .ok (.other name))
    (hc : o.extConsumed = false) :
    processExtension o ss msg = (ss, .failure) := by
  simp [processExtension, hp, hc]

theorem C9_unknown_extension_reply_witness :
    extMsgParse c9Oracles.extRegistry c9Oracles.embedderParseOk c9Oracles.pubParse
        c9Oracles.verify otherExtMsg = .ok (.other otherExtName) ∧
      c9Oracles.extConsumed = false ∧
      processExtension c9Oracles emptySession otherExtMsg = (emptySession, .failure) :=
  ⟨rfl, rfl,
   C9_unknown_extension_reply c9Oracles emptySession otherExtMsg otherExtName rfl rfl⟩

/-- C9 counterexample: the well-formed EXTENSION request `otherExtMsg` carries
a name that is neither consumed nor `session-bind@openssh.com`; the claim says
the session state stays untouched with `binding_failed` false, yet the factory
throws on the unregistered name and the session is poisoned. -/
theorem C9_counterexample :
    emptySession.binding_failed = false ∧
      (processExtension sampleOracles emptySession otherExtMsg).2 = .failure ∧
      (processExtension sampleOracles emptySession otherExtMsg).1.binding_failed = true := by
  refine ⟨rfl, ?_, ?_⟩ <;> decide

end Libssha
